import Mathlib

/-!
Verification of the personal-finance ledger application (`src/main.py`).

The Python source is shallowly embedded here:
* Python floats are idealised as exact rationals (`Rat`); every numeric
  literal occurring in the claims is exactly representable, so no
  rounding behaviour is relevant to any statement below.
* A Python function that can raise is embedded as an `Option`-valued
  function: `none` means the call raises (`ValueError` etc.).
* A pandas `DataFrame` over the fixed record columns becomes a
  `List Row`, one `Cell` per column, where a `Cell` carries the dynamic
  value of the underlying column entry (number, string, date, or NaN).
-/

namespace Leekey

/-! ## Python string primitives

`str.strip` and `str.lower`, over `List Char`.  Python strips all Unicode
whitespace and lowercases all cased letters; all strings handled by the
app's parsers are ASCII or caseless CJK, so ASCII whitespace/lowering is
the exercised fragment. -/

def isPySpace (c : Char) : Bool :=
  c == ' ' || c == '\t' || c == '\n' || c == '\r' || c == '\x0b' || c == '\x0c'

/-- `str.strip()`. -/
def pyStrip (cs : List Char) : List Char :=
  ((cs.dropWhile isPySpace).reverse.dropWhile isPySpace).reverse

def pyLowerChar (c : Char) : Char :=
  if 65 ≤ c.toNat && c.toNat ≤ 90 then Char.ofNat (c.toNat + 32) else c

/-- `str.lower()`. -/
def pyLower (cs : List Char) : List Char := cs.map pyLowerChar

/-! ## Python numeric-string parsing

`float(s)` restricted to the character set that can reach it in
`parse_amount` (digits, `.`, `-`; `pdToNumeric` additionally feeds `+`).
The grammar is: optional sign, then either `digits`, `digits.digits`,
`digits.`, or `.digits`.  Anything else (second dot, interior sign …)
raises, i.e. yields `none`.  Overflow to `inf` cannot occur in the exact
rational idealisation. -/

def natOfDigits (cs : List Char) : Nat :=
  cs.foldl (fun a c => a * 10 + (c.toNat - 48)) 0

def pow10 : Nat → Nat
  | 0 => 1
  | n + 1 => 10 * pow10 n

/-- The exact value of the decimal literal `ip.fr`. -/
def decValue (ip fr : List Char) : Rat :=
  Rat.divInt (Int.ofNat (natOfDigits ip * pow10 fr.length + natOfDigits fr))
    (Int.ofNat (pow10 fr.length))

def pyFloat (cs : List Char) : Option Rat :=
  let signBody : Bool × List Char :=
    match cs with
    | '-' :: t => (true, t)
    | '+' :: t => (false, t)
    | _ => (false, cs)
  let neg := signBody.1
  let body := signBody.2
  let ip := body.takeWhile Char.isDigit
  let rest := body.drop ip.length
  let mag : Option Rat :=
    match rest with
    | [] => if ip.isEmpty then none else some (decValue ip [])
    | '.' :: fr =>
        if fr.all Char.isDigit && !(ip.isEmpty && fr.isEmpty) then
          some (decValue ip fr)
        else none
    | _ => none
  mag.map (fun m => if neg then -m else m)

/-! ## Amount Normalizer (`parse_amount`, src/main.py lines 270-277) -/

/-- The character class kept by `re.sub(r"[^\d\.\-]", "", s)`. -/
def amountKeep (c : Char) : Bool := c.isDigit || c == '.' || c == '-'

/-- The cleaned character list `re.sub(r"[^\d\.\-]", "", s.strip())`. -/
def cleanAmount (s : String) : List Char := (pyStrip s.data).filter amountKeep

/-- The degenerate cleaned forms `["", "-", ".", "-."]`. -/
def degenerateForms : List (List Char) := [[], ['-'], ['.'], ['-', '.']]

/-- `parse_amount`.  `none` = the final `float(clean)` raises. -/
def parse_amount (s : String) : Option Rat :=
  if pyStrip s.data = [] then some 0
  else if cleanAmount s ∈ degenerateForms then some 0
  else pyFloat (cleanAmount s)

/-! ## Type Normalizer (`normalize_type`, src/main.py lines 280-286) -/

def incomeSyns : List String := ["收入", "income", "in", "+", "earning", "earnings", "收"]

def expenseSyns : List String := ["支出", "expense", "out", "-", "spend", "spending", "支"]

/-- `(t or "").strip().lower()`, as a `String`. -/
def typeKey (t : String) : String := String.mk (pyLower (pyStrip t.data))

def normalize_type (t : String) : String :=
  if typeKey t ∈ incomeSyns then "收入"
  else if typeKey t ∈ expenseSyns then "支出"
  else ""

/-! ## Calendar dates and dynamic cells -/

structure Date where
  year : Nat
  month : Nat
  day : Nat
deriving DecidableEq

/-- One DataFrame cell.  `null` is pandas `NaN`/`None`. -/
inductive Cell where
  | num : Rat → Cell
  | str : String → Cell
  | date : Date → Cell
  | null : Cell
deriving DecidableEq

/-- One row of the records table, columns `RECORD_COLS`
(`["ID", "日期", "账本", "类别", "项目", "金额", "类型"]`), i.e.
ID / date / book / category / item / amount / type.  The structure always
has all columns, so the source's fill-in of missing columns
(`prepare_for_editor` lines 188-190) is already accounted for. -/
structure Row where
  ID : Cell
  date : Cell
  book : Cell
  category : Cell
  item : Cell
  amount : Cell
  type : Cell
deriving DecidableEq

/-! ## Rendering numbers and dates back to text (`astype(str)`) -/

def pyAbs (q : Rat) : Rat := if q < 0 then -q else q

def natDigitsAux : Nat → Nat → List Char
  | 0, _ => []
  | fuel + 1, n =>
      if n < 10 then [Char.ofNat (48 + n)]
      else natDigitsAux fuel (n / 10) ++ [Char.ofNat (48 + n % 10)]

def natStr (n : Nat) : List Char := natDigitsAux (n + 1) n

def padZero (k : Nat) (cs : List Char) : List Char :=
  List.replicate (k - cs.length) '0' ++ cs

/-- `str(d)` for a `datetime.date`: zero-padded `YYYY-MM-DD`. -/
def dateStr (d : Date) : String :=
  String.mk (padZero 4 (natStr d.year) ++ '-' :: padZero 2 (natStr d.month)
    ++ '-' :: padZero 2 (natStr d.day))

/-- Digits and decimal exponent of a nonnegative rational whose denominator
divides a power of ten (every value a float cell can hold in the exact
idealisation); `none` when the fuel runs out. -/
def decimalExpand : Rat → Nat → Option (Nat × Nat)
  | _, 0 => none
  | a, fuel + 1 =>
      if a.den = 1 then some (a.num.natAbs, 0)
      else
        (decimalExpand (Rat.divInt (a.num * 10) (Int.ofNat a.den)) fuel).map
          (fun p => (p.1, p.2 + 1))

/-- `str(x)` for a float cell, e.g. `5.0`, `-2.5`; model of Python's decimal
rendering in the exact-rational idealisation. -/
def numStr (q : Rat) : String :=
  let sign : List Char := if q < 0 then ['-'] else []
  match decimalExpand (pyAbs q) 200 with
  | some (n, 0) => String.mk (sign ++ natStr n ++ ['.', '0'])
  | some (n, e) =>
      let ds := padZero (e + 1) (natStr n)
      String.mk (sign ++ ds.take (ds.length - e) ++ '.' :: ds.drop (ds.length - e))
  | none => String.mk (sign ++ natStr q.num.natAbs ++ '/' :: natStr q.den)

/-- `astype(str)` on one cell: strings untouched, `NaN` becomes `"nan"`. -/
def cellText : Cell → String
  | .str s => s
  | .num q => numStr q
  | .date d => dateStr d
  | .null => "nan"

/-! ## pandas per-cell coercions -/

/-- `pd.to_numeric(x, errors="coerce")` on one cell; `none` is `NaN`. -/
def pdToNumeric : Cell → Option Rat
  | .num q => some q
  | .str s => pyFloat (pyStrip s.data)
  | .date _ => none
  | .null => none

def splitOnChar (sep : Char) : List Char → List (List Char)
  | [] => [[]]
  | c :: t =>
      match splitOnChar sep t with
      | [] => [[c]]
      | h :: hs => if c = sep then [] :: h :: hs else (c :: h) :: hs

def isLeap (y : Nat) : Bool := (y % 4 == 0 && y % 100 != 0) || y % 400 == 0

def daysInMonth (y m : Nat) : Nat :=
  if m == 2 then (if isLeap y then 29 else 28)
  else if [4, 6, 9, 11].contains m then 30 else 31

def validYMD (y m d : Nat) : Bool :=
  1 ≤ m && m ≤ 12 && 1 ≤ d && d ≤ daysInMonth y m

/-- Date-string parsing: the zero-or-naturally padded dash form
`YYYY-M[M]-D[D]` that the application itself writes to CSV.  (pandas'
`to_datetime` accepts further formats never produced by the app.) -/
def parseISODate (s : String) : Option Date :=
  match splitOnChar '-' (pyStrip s.data) with
  | [ys, ms, ds] =>
      if ys.all Char.isDigit && (ys.length == 4) && ms.all Char.isDigit
          && decide (1 ≤ ms.length) && (ms.length ≤ 2) && ds.all Char.isDigit
          && decide (1 ≤ ds.length) && (ds.length ≤ 2)
          && validYMD (natOfDigits ys) (natOfDigits ms) (natOfDigits ds) then
        some ⟨natOfDigits ys, natOfDigits ms, natOfDigits ds⟩
      else none
  | _ => none

/-- `pd.to_datetime(x, errors="coerce")` on one cell; `none` is `NaT`.
Numbers are mapped to `none`: pandas would read them as epoch offsets, but
the app never stores numbers in the date column. -/
def pdToDatetime : Cell → Option Date
  | .date d => some d
  | .str s => parseISODate s
  | .num _ => none
  | .null => none

/-! ## `prepare_for_editor` (src/main.py lines 183-204) -/

/-- `.replace({"nan": "", "None": ""})` on one already-stringified cell. -/
def replaceNanNone (s : String) : String :=
  if s == "nan" || s == "None" then "" else s

/-- `int(x)` / `astype(int)` on a float: truncation toward zero. -/
def pyInt (q : Rat) : Int := if q < 0 then ⌈q⌉ else ⌊q⌋

/-- The rational value of an integer (kernel-reducible form of the cast). -/
def intRat (n : Int) : Rat := Rat.divInt n 1

/-- Text-column treatment: `astype(str).replace({"nan": "", "None": ""})`. -/
def textCell (c : Cell) : String := replaceNanNone (cellText c)

/-- Type-column treatment: text conversion, then
`x.loc[~x["类型"].isin(["收入", "支出"]), "类型"] = "支出"`. -/
def mkType (c : Cell) : String :=
  let t := textCell c
  if t == "收入" || t == "支出" then t else "支出"

/-- The per-row effect of `prepare_for_editor`: rows with an unparseable
date are dropped, the others get integer `ID`, date `日期`, float `金额`,
string text columns, and a canonical `类型`. -/
def prepRow (r : Row) : Option Row :=
  match pdToDatetime r.date with
  | none => none
  | some d => some {
      ID := .num (intRat (pyInt ((pdToNumeric r.ID).getD 0))),
      date := .date d,
      book := .str (textCell r.book),
      category := .str (textCell r.category),
      item := .str (textCell r.item),
      amount := .num ((pdToNumeric r.amount).getD 0),
      type := .str (mkType r.type) }

def prepare_for_editor (df : List Row) : List Row :=
  if df.isEmpty then [] else df.filterMap prepRow

/-! ## Session state and the interaction handlers

`AppState` carries the in-memory records table (`st.session_state.records`)
and the persisted `records.csv` contents (`savedRecords`); both are updated
together by `persist_user_state`.  The budget table and the user config are
not touched by any of the embedded handlers and are omitted. -/

structure AppState where
  records : List Row
  savedRecords : List Row
deriving DecidableEq

/-- `next_id` (src/main.py lines 263-267):
`int(pd.to_numeric(df["ID"], errors="coerce").max()) + 1`, or `1` for an
empty table.  `none` = `int(NaN)` raises (non-empty table, no numeric ID). -/
def next_id (df : List Row) : Option Int :=
  if df.isEmpty then some 1
  else
    match df.filterMap (fun r => pdToNumeric r.ID) with
    | [] => none
    | q :: qs => some (pyInt (qs.foldl max q) + 1)

/-- The sidebar form fields (src/main.py lines 494-508). -/
structure FormInput where
  date : Date
  book : String
  baseCategory : String
  customCategory : String
  item : String
  amountText : String
  ttype : String
deriving DecidableEq

/-- `final_cat = custom_c if (c_base == "其他" and custom_c.strip() != "") else c_base`. -/
def finalCat (inp : FormInput) : String :=
  if inp.baseCategory == "其他" && !(pyStrip inp.customCategory.data).isEmpty then
    inp.customCategory
  else inp.baseCategory

/-- The `new_row` dict built by the submit handler (src/main.py lines 514-522). -/
def formRow (inp : FormInput) (nid : Int) (amt : Rat) : Row :=
  { ID := .num (intRat nid),
    date := .date inp.date,
    book := .str inp.book,
    category := .str (finalCat inp),
    item := .str inp.item,
    amount := .num amt,
    type := .str inp.ttype }

/-- The sidebar `record_form` submit handler (src/main.py lines 510-529).
The body runs inside `try`: if `parse_amount` (first statement) or
`next_id` raises, the `except` branch shows an error and nothing is
mutated; otherwise the new row is appended, piped through
`prepare_for_editor`, and persisted. -/
def submitRecord (st : AppState) (inp : FormInput) : AppState :=
  match parse_amount inp.amountText with
  | none => st
  | some amt =>
      match next_id st.records with
      | none => st
      | some nid =>
          let recs := prepare_for_editor (st.records ++ [formRow inp nid amt])
          { records := recs, savedRecords := recs }

/-- The delete-button handler (src/main.py lines 629-640): with a nonempty
selection, keep the rows whose ID is not selected and re-prepare. -/
def deleteRows (st : AppState) (delIds : List Int) : AppState :=
  if delIds.isEmpty then st
  else
    let full2 := (prepare_for_editor st.records).filter
        (fun r => ! delIds.any (fun i => r.ID == Cell.num (intRat i)))
    let recs := prepare_for_editor full2
    { records := recs, savedRecords := recs }

/-- One iteration of the save-edits loop (src/main.py lines 618-621):
overwrite the editable columns of every row whose ID matches the edited
row's ID (the ID column itself is not editable). -/
def applyEdit (full : List Row) (e : Row) : List Row :=
  full.map (fun r =>
    if r.ID == e.ID then
      { r with date := e.date, book := e.book, category := e.category,
               item := e.item, amount := e.amount, type := e.type }
    else r)

/-- The save-edits handler (src/main.py lines 613-626). -/
def saveEdits (st : AppState) (edited : List Row) : AppState :=
  let edited2 := prepare_for_editor edited
  let full2 := prepare_for_editor st.records
  let recs := prepare_for_editor (edited2.foldl applyEdit full2)
  { records := recs, savedRecords := recs }

/-- Type-column treatment of the CSV import (src/main.py lines 716-717):
`normalize_type`, then coerce anything non-canonical to `"支出"`. -/
def importRowType (c : Cell) : String :=
  let n := normalize_type (cellText c)
  if n == "收入" || n == "支出" then n else "支出"

/-- One row of the import-handler's `tmp` frame (src/main.py lines 707-720):
`p` pairs the row's position (for the ID range) with its parsed date and
the uploaded row. -/
def importBuiltRow (start : Int) (p : Nat × (Date × Row)) : Row :=
  { ID := .num (intRat (start + Int.ofNat p.1)),
    date := .date p.2.1,
    book := p.2.2.book,
    category := p.2.2.category,
    item := p.2.2.item,
    amount := .num (pyAbs ((parse_amount (cellText p.2.2.amount)).getD 0)),
    type := .str (importRowType p.2.2.type) }

/-- The CSV import handler (src/main.py lines 706-726).  `dfin` is the
uploaded frame with the record columns materialised (a column missing from
the upload is the source's scalar default broadcast over all rows).
The whole handler runs inside `try`: `parse_amount` is applied to the
stringified amount column of *all* uploaded rows (before the date filter),
so a single raising amount cell aborts the import with no state change.
Amounts are passed through `.abs()`; rows with unparseable dates are
dropped; IDs are assigned sequentially from `next_id`. -/
def importCSV (st : AppState) (dfin : List Row) : AppState :=
  if dfin.all (fun r => (parse_amount (cellText r.amount)).isSome) then
    match next_id st.records with
    | none => st
    | some start =>
        let kept := dfin.filterMap (fun r => (pdToDatetime r.date).map (fun d => (d, r)))
        let tmp := kept.enum.map (importBuiltRow start)
        let tmp2 := prepare_for_editor tmp
        let recs := prepare_for_editor (prepare_for_editor st.records ++ tmp2)
        { records := recs, savedRecords := recs }
  else st

/-- The float value a row's amount column coerces to (`NaN ↦ 0.0`),
i.e. the value `prepare_for_editor` stores for that row. -/
def amtVal (r : Row) : Rat := (pdToNumeric r.amount).getD 0

/-- Every ID cell of the table holds an integer. -/
def intIDs (df : List Row) : Prop :=
  ∀ r ∈ df, ∃ n : Int, r.ID = Cell.num (intRat n)

/-- The ID invariant of the records table: integer IDs, no duplicates. -/
def IDsOK (df : List Row) : Prop :=
  intIDs df ∧ (df.map Row.ID).Nodup

/-! ## Concrete fixtures used by the witness theorems -/

def blankRow : Row := ⟨.null, .null, .null, .null, .null, .null, .null⟩

/-- A raw row with a junk type column, as a CSV on disk could contain. -/
def probeRow : Row :=
  { ID := .str "3", date := .str "2025-12-02", book := .str "理财账本",
    category := .str "工资", item := .str "", amount := .str "9",
    type := .str "whatever" }

def st0 : AppState := ⟨[], []⟩

/-- A plain sidebar submission: amount text `"5"`. -/
def inp1 : FormInput := ⟨⟨2025, 1, 1⟩, "生活主账", "其他", "", "", "5", "支出"⟩

/-- A sidebar submission whose amount text has a leading minus. -/
def inpNeg : FormInput := ⟨⟨2025, 1, 1⟩, "生活主账", "其他", "", "", "-5", "支出"⟩

/-- A sidebar submission whose amount text makes `float` raise. -/
def badInput : FormInput := ⟨⟨2025, 1, 1⟩, "生活主账", "其他", "", "", "12.3.4", "支出"⟩

/-- A one-row upload frame: valid date, amount text `"-30"`, type `"out"`. -/
def importFrame0 : List Row :=
  [{ ID := .null, date := .str "2025-12-02", book := .str "车子专项",
     category := .str "Petrol", item := .null, amount := .str "-30",
     type := .str "out" }]

/-! ## Session-cookie signing (src/main.py lines 128-152, 292-310)

The cryptographic compressions (HMAC-SHA256 keyed by `APP_SECRET`, and
plain SHA-256) are abstract parameters `H`, `H2 : List Char → Nat`; the
`.hexdigest()` encoding applied to their output is explicit, so that the
format-level facts (no `'|'` in a signature, what the cookie splits into)
are proved, not assumed. -/

def hexChar (n : Nat) : Char :=
  if n < 10 then Char.ofNat (48 + n) else Char.ofNat (87 + n)

def hexDigestAux : Nat → Nat → List Char
  | 0, _ => []
  | fuel + 1, n =>
      if n < 16 then [hexChar n]
      else hexDigestAux fuel (n / 16) ++ [hexChar (n % 16)]

/-- `.hexdigest()`: the hexadecimal rendering of a hash value. -/
def hexDigest (n : Nat) : List Char := hexDigestAux (n + 1) n

/-- `sign_token` (lines 128-131): `hmac.new(APP_SECRET, raw, sha256).hexdigest()`. -/
def sign_token (H : List Char → Nat) (raw : List Char) : List Char := hexDigest (H raw)

/-- `make_session_cookie_value` (lines 134-137). -/
def make_session_cookie_value (H : List Char → Nat) (username raw : List Char) : List Char :=
  username ++ '|' :: raw ++ '|' :: sign_token H (username ++ '|' :: raw)

/-- The body of `parse_session_cookie_value` after `v.split("|")`:
exactly three parts with a matching signature, or `(None, None)`. -/
def parseParts (H : List Char → Nat) : List (List Char) → Option (List Char × List Char)
  | [username, raw, sig] =>
      if sign_token H (username ++ '|' :: raw) = sig then some (username, raw) else none
  | _ => none

/-- `parse_session_cookie_value` (lines 140-152); `none` = `(None, None)`.
`hmac.compare_digest` is (constant-time) equality. -/
def parse_session_cookie_value (H : List Char → Nat) (v : List Char) :
    Option (List Char × List Char) :=
  parseParts H (splitOnChar '|' v)

/-- The auth database restricted to the field the cookie scheme uses:
`username ↦ session_token_hash`.  (`salt`/`hash`/timestamps are never read
by the token functions and are omitted.) -/
def lookupTokenHash (db : List (List Char × List Char)) (u : List Char) :
    Option (List Char) :=
  (db.find? (fun p => p.1 == u)).map Prod.snd

/-- `create_or_rotate_session_token` (lines 292-299):
`db[username]["session_token_hash"] = sha256(raw + APP_SECRET).hexdigest()`.
The caller always has `username` present in `db`; the fresh raw token and
the issue timestamp are irrelevant to the stored-hash claim and omitted. -/
def create_or_rotate_session_token (H2 : List Char → Nat) (secret : List Char)
    (db : List (List Char × List Char)) (username raw : List Char) :
    List (List Char × List Char) :=
  db.map (fun p => if p.1 == username then (p.1, hexDigest (H2 (raw ++ secret))) else p)

/-! ## Memo Parser / Line Classifier

Modelled from the spec: the free-text Memo Parser and its Line Classifier
(spec §4.3-§4.4) are not part of `src/main.py`; the definitions below
follow the spec's algorithm steps 1-9 literally, with the fixed
vocabularies taken from the sidebar lists in `src/main.py`
(lines 497-499, 503). -/

structure MemoEntry where
  date : Date
  book : String
  category : String
  item : String
  amount : Rat
  type : String
deriving DecidableEq

def bookVocab : List String := ["生活主账", "车子专项", "学费/购汇", "理财账本"]

def expenseCats : List String :=
  ["Eat outside", "Shopping", "Bill", "Petrol", "Insurance", "Rent", "其他"]

def incomeCats : List String := ["工资", "业余项目", "亲情赠与", "理财收益", "其他"]

/-- Substring containment. -/
def containsSub (hay pat : List Char) : Bool :=
  hay.tails.any (fun t => pat.isPrefixOf t)

def isSep (c : Char) : Bool := c == '-' || c == '/' || c == '.'

/-- Modelled from the spec (§4.3 step 1): match `YYYY sep M[M] sep D[D]`
at the head of the list; returns year, month, day and the match length. -/
def tryDateAt (cs : List Char) : Option (Nat × Nat × Nat × Nat) :=
  let ys := cs.take 4
  if ys.length == 4 && ys.all Char.isDigit then
    match cs.drop 4 with
    | c1 :: r1 =>
        if isSep c1 then
          let ms := (r1.take 2).takeWhile Char.isDigit
          if !ms.isEmpty then
            match r1.drop ms.length with
            | c2 :: r2 =>
                if isSep c2 then
                  let ds := (r2.take 2).takeWhile Char.isDigit
                  if !ds.isEmpty then
                    some (natOfDigits ys, natOfDigits ms, natOfDigits ds,
                      4 + 1 + ms.length + 1 + ds.length)
                  else none
                else none
            | [] => none
          else none
        else none
    | [] => none
  else none

/-- First date match in the line; returns (y, m, d) and the line with the
matched substring removed (spec §4.3 steps 1 and 8). -/
def findDateAux : List Char → List Char → Option ((Nat × Nat × Nat) × List Char)
  | _, [] => none
  | acc, c :: t =>
      match tryDateAt (c :: t) with
      | some (y, m, d, len) => some ((y, m, d), acc.reverse ++ (c :: t).drop len)
      | none => findDateAux (c :: acc) t

def findDate (cs : List Char) : Option ((Nat × Nat × Nat) × List Char) :=
  findDateAux [] cs

def digitOrComma (c : Char) : Bool := c.isDigit || c == ','

/-- Modelled from the spec (§4.3 step 3): maximal-munch match of the
permissive numeric-token pattern `[+-]?\d[\d,]*(\.\d+)?` at the head;
returns the token and the remainder. -/
def tryTokenAt : List Char → Option (List Char × List Char)
  | [] => none
  | c :: t =>
      let start : Option (List Char × List Char) :=
        if c == '+' || c == '-' then
          match t with
          | d :: _ => if d.isDigit then some ([c], t) else none
          | [] => none
        else if c.isDigit then some ([], c :: t)
        else none
      match start with
      | none => none
      | some (sgn, body) =>
          let run := body.takeWhile digitOrComma
          let rest := body.drop run.length
          match rest with
          | '.' :: r2 =>
              let fr := r2.takeWhile Char.isDigit
              if fr.isEmpty then some (sgn ++ run, rest)
              else some (sgn ++ run ++ '.' :: fr, r2.drop fr.length)
          | _ => some (sgn ++ run, rest)

/-- All numeric tokens of a line, and the line with them removed.  Each
matched token is nonempty, so the fuel `length + 1` never runs out. -/
def scanTokensAux : Nat → List Char → List (List Char) × List Char
  | 0, cs => ([], cs)
  | _ + 1, [] => ([], [])
  | fuel + 1, c :: t =>
      match tryTokenAt (c :: t) with
      | some (tok, rest) =>
          let p := scanTokensAux fuel rest
          (tok :: p.1, p.2)
      | none =>
          let p := scanTokensAux fuel t
          (p.1, c :: p.2)

def scanTokens (cs : List Char) : List (List Char) × List Char :=
  scanTokensAux (cs.length + 1) cs

/-- Modelled from the spec (§4.3 step 5): type keywords by substring
containment over the lowercased line, then sign of the amount token, then
the documented default `expense`. -/
def memoType (line lastTok : List Char) : String :=
  let low := pyLower line
  if incomeSyns.any (fun k => containsSub low k.data) then "收入"
  else if expenseSyns.any (fun k => containsSub low k.data) then "支出"
  else
    match lastTok with
    | '-' :: _ => "支出"
    | '+' :: _ => "收入"
    | _ => "支出"

/-- Modelled from the spec (§4.3 step 6): first contained book name, else
the first vocabulary entry. -/
def memoBook (line : List Char) : String :=
  (bookVocab.find? (fun b => containsSub line b.data)).getD "生活主账"

/-- Modelled from the spec (§4.3 step 7): first contained category from
the union of the two vocabularies, else the "other" entry. -/
def memoCat (line : List Char) : String :=
  ((expenseCats ++ incomeCats).find? (fun k => containsSub line k.data)).getD "其他"

def splitWhite : List Char → List (List Char)
  | [] => [[]]
  | c :: t =>
      match splitWhite t with
      | [] => [[c]]
      | h :: hs => if isPySpace c then [] :: h :: hs else (c :: h) :: hs

def joinWords : List (List Char) → List Char
  | [] => []
  | [w] => w
  | w :: ws => w ++ ' ' :: joinWords ws

/-- Collapse whitespace runs and trim (spec §4.3 step 8). -/
def collapseWs (cs : List Char) : String :=
  String.mk (joinWords ((splitWhite cs).filter (fun w => !w.isEmpty)))

/-- Modelled from the spec (§4.3): the Line Classifier on one trimmed,
nonempty line; `none` = line skipped. -/
def classifyLine (line : List Char) : Option MemoEntry :=
  match findDate line with
  | none => none
  | some ((y, m, d), lineNoDate) =>
      if validYMD y m d then
        match (scanTokens line).1.getLast? with
        | none => none
        | some lastTok =>
            some {
              date := ⟨y, m, d⟩,
              book := memoBook line,
              category := memoCat line,
              item := collapseWs (scanTokens lineNoDate).2,
              amount := pyAbs ((parse_amount (String.mk lastTok)).getD 0),
              type := memoType line lastTok }
      else none

/-- Modelled from the spec (§4.4): the Memo Parser applies the Line
Classifier to every nonblank line, keeping input order. -/
def parse_memo (text : String) : List MemoEntry :=
  (splitOnChar '\n' text.data).filterMap (fun l =>
    let t := pyStrip l
    if t.isEmpty then none else classifyLine t)

end Leekey

/-! Behaviour checks: concrete evaluations of the embedded definitions
against the behaviour of the Python source on the same inputs. -/

example : Leekey.parse_amount "" = some 0 := by decide
example : Leekey.parse_amount " $1,234.50 " = some (Rat.divInt 12345 10) := by decide
example : Leekey.parse_amount "-5" = some (-5) := by decide
example : Leekey.parse_amount "12.3.4" = none := by decide
example : Leekey.parse_amount "1-2" = none := by decide
example : Leekey.normalize_type " IN " = "收入" := by decide
example : Leekey.normalize_type "my income" = "" := by decide
example : Leekey.normalize_type "支" = "支出" := by decide
example : Leekey.parseISODate "2025-12-02" = some ⟨2025, 12, 2⟩ := by decide
example : Leekey.parseISODate "2025-13-02" = none := by decide
example : Leekey.numStr (Rat.divInt (-5) 2) = "-2.5" := by decide
example : Leekey.numStr (Rat.divInt 5 1) = "5.0" := by decide
example :
    Leekey.prepare_for_editor
      [{ ID := .str "7", date := .str "2025-12-02", book := .null, category := .str "None",
         item := .str "x", amount := .str "¥3", type := .str "income" },
       { ID := .null, date := .null, book := .null, category := .null,
         item := .null, amount := .null, type := .null }] =
      [{ ID := .num 7, date := .date ⟨2025, 12, 2⟩, book := .str "", category := .str "",
         item := .str "x", amount := .num 0, type := .str "支出" }] := by decide

section BehaviourChecks
open Leekey

example : (submitRecord st0 inp1).records =
    [{ ID := .num 1, date := .date ⟨2025, 1, 1⟩, book := .str "生活主账",
       category := .str "其他", item := .str "", amount := .num 5, type := .str "支出" }] := by
  decide

example : (deleteRows (submitRecord st0 inp1) [1]).records = [] := by decide

example : (submitRecord (deleteRows (submitRecord st0 inp1) [1]) inp1).records.map Row.ID =
    [Cell.num 1] := by decide

example : (submitRecord st0 inpNeg).records.map Row.amount = [Cell.num (-5)] := by decide

example : submitRecord st0 ⟨⟨2025, 1, 1⟩, "生活主账", "其他", "", "", "12.3.4", "支出"⟩ = st0 := by
  decide

example :
    (importCSV st0
      [{ ID := .null, date := .str "2025-12-02", book := .str "车子专项", category := .str "Petrol",
         item := .null, amount := .str "-30", type := .str "out" }]).records.map
      (fun r => (r.ID, r.amount, r.type)) =
    [(Cell.num 1, Cell.num 30, Cell.str "支出")] := by decide

example :
    (parse_memo "2025-12-02 支出 Rent 500").map
      (fun e => (e.date, e.type, e.category, e.amount)) =
    [(⟨2025, 12, 2⟩, "支出", "Rent", (500 : Rat))] := by decide

example :
    (parse_memo "2025-12-01 收入 工资 3000").map
      (fun e => (e.date, e.type, e.category, e.amount)) =
    [(⟨2025, 12, 1⟩, "收入", "工资", (3000 : Rat))] := by decide

example : parse_memo "bought coffee 5" = [] := by decide

example : (parse_memo "2025-12-02 支出 Rent 500").map MemoEntry.item = ["支出 Rent"] := by
  decide

example :
    parse_session_cookie_value (fun _ => 258)
      (make_session_cookie_value (fun _ => 258) "alice".data "tok".data) =
    some ("alice".data, "tok".data) := by decide

example : parse_session_cookie_value (fun _ => 258) "alice|tok".data = none := by decide

example : parse_session_cookie_value (fun _ => 258) "alice|tok|beef".data = none := by decide

example : hexDigest 258 = ['1', '0', '2'] := by decide

end BehaviourChecks

namespace Leekey

/-! ## Helper lemmas -/

theorem incomeSyns_not_expenseSyns (c : String) (h : c ∈ incomeSyns) :
    c ∉ expenseSyns := by
  simp only [incomeSyns, List.mem_cons, List.not_mem_nil, or_false] at h
  rcases h with rfl | rfl | rfl | rfl | rfl | rfl | rfl <;> decide

/-! ## C1 -/

/-- C1: every input whose stripped-and-cleaned form is one of the
degenerate shapes `"" | "-" | "." | "-."` (in particular every empty or
all-whitespace input) is mapped to exactly `0.0` by `parse_amount`. -/
theorem parse_amount_degenerate_zero (s : String)
    (h : cleanAmount s ∈ degenerateForms) : parse_amount s = some 0 := by
  unfold parse_amount
  by_cases he : pyStrip s.data = []
  · rw [if_pos he]
  · rw [if_neg he, if_pos h]

theorem parse_amount_degenerate_zero_witness :
    cleanAmount " $-. " ∈ degenerateForms ∧ parse_amount " $-. " = some 0 :=
  ⟨by decide, parse_amount_degenerate_zero " $-. " (by decide)⟩

/-! ## C2 -/

/-- C2 counterexample: `parse_amount` is not total — on `"12.3.4"` the
cleaned string passes the degenerate-forms guard and `float("12.3.4")`
raises `ValueError` (embedded as `none`). -/
theorem parse_amount_multidot_raises : parse_amount "12.3.4" = none := by decide

/-- C2 amended: `parse_amount` raises exactly on the inputs whose stripped
form is nonempty and whose cleaned form is non-degenerate yet rejected by
`float` (multiple dots or a misplaced sign); on every other input it
returns a value. -/
theorem parse_amount_raises_iff (s : String) :
    parse_amount s = none ↔
      pyStrip s.data ≠ [] ∧ cleanAmount s ∉ degenerateForms ∧
        pyFloat (cleanAmount s) = none := by
  unfold parse_amount
  by_cases he : pyStrip s.data = []
  · simp [he]
  · by_cases hm : cleanAmount s ∈ degenerateForms <;> simp [he, hm]

/-! ## C3 -/

/-- C3: `normalize_type` returns `"收入"` exactly when the lowercased,
trimmed input is in the income-synonym set, `"支出"` exactly when it is in
the expense-synonym set, and the unknown value `""` otherwise; matching is
whole-string only — e.g. `"my income"` is unknown. -/
theorem normalize_type_exact_match (t : String) :
    ((normalize_type t = "收入") ↔ typeKey t ∈ incomeSyns) ∧
    ((normalize_type t = "支出") ↔ typeKey t ∈ expenseSyns) ∧
    ((normalize_type t = "") ↔ (typeKey t ∉ incomeSyns ∧ typeKey t ∉ expenseSyns)) ∧
    normalize_type "my income" = "" := by
  refine ⟨?_, ?_, ?_, by decide⟩ <;>
  · by_cases h1 : typeKey t ∈ incomeSyns
    · have h2 : typeKey t ∉ expenseSyns := incomeSyns_not_expenseSyns _ h1
      simp [normalize_type, h1, h2]
    · by_cases h2 : typeKey t ∈ expenseSyns <;> simp [normalize_type, h1, h2]

/-! ## Structure of `prepare_for_editor` -/

theorem prepare_eq_filterMap (df : List Row) :
    prepare_for_editor df = df.filterMap prepRow := by
  cases df <;> simp [prepare_for_editor]

theorem prepRow_none (r : Row) (h : pdToDatetime r.date = none) : prepRow r = none := by
  unfold prepRow; rw [h]

theorem prepRow_some (r : Row) (d : Date) (h : pdToDatetime r.date = some d) :
    prepRow r = some {
      ID := .num (intRat (pyInt ((pdToNumeric r.ID).getD 0))),
      date := .date d,
      book := .str (textCell r.book),
      category := .str (textCell r.category),
      item := .str (textCell r.item),
      amount := .num ((pdToNumeric r.amount).getD 0),
      type := .str (mkType r.type) } := by
  unfold prepRow; rw [h]

theorem replaceNanNone_not_special (s : String) :
    replaceNanNone s ≠ "nan" ∧ replaceNanNone s ≠ "None" := by
  unfold replaceNanNone
  by_cases h : (s == "nan" || s == "None") = true
  · rw [if_pos h]; exact ⟨by decide, by decide⟩
  · rw [if_neg h]
    simp only [Bool.or_eq_true, beq_iff_eq] at h
    push_neg at h
    exact h

theorem replaceNanNone_idem (s : String) :
    replaceNanNone (replaceNanNone s) = replaceNanNone s := by
  obtain ⟨h1, h2⟩ := replaceNanNone_not_special s
  conv_lhs => rw [replaceNanNone]
  rw [if_neg]
  simp [h1, h2]

theorem textCell_idem (c : Cell) : textCell (.str (textCell c)) = textCell c :=
  replaceNanNone_idem (cellText c)

theorem mkType_canonical (c : Cell) : mkType c = "收入" ∨ mkType c = "支出" := by
  unfold mkType
  by_cases h : (textCell c == "收入" || textCell c == "支出") = true
  · rw [if_pos h]; simpa using h
  · rw [if_neg h]; exact Or.inr rfl

theorem mkType_fixed (s : String) (h : s = "收入" ∨ s = "支出") :
    mkType (.str s) = s := by
  rcases h with rfl | rfl <;> decide

theorem intRat_cast (n : Int) : intRat n = (n : Rat) := by
  simp [intRat, Rat.divInt_one]

theorem pyInt_intRat (n : Int) : pyInt (intRat n) = n := by
  rw [intRat_cast]
  unfold pyInt
  by_cases h : ((n : Rat) < 0)
  · rw [if_pos h, Int.ceil_intCast]
  · rw [if_neg h, Int.floor_intCast]

theorem prepRow_idem (r r' : Row) (h : prepRow r = some r') : prepRow r' = some r' := by
  cases hd : pdToDatetime r.date with
  | none => rw [prepRow_none r hd] at h; exact absurd h (by simp)
  | some d =>
      rw [prepRow_some r d hd] at h
      cases h
      simp only [prepRow, pdToDatetime, pdToNumeric, Option.getD_some, Option.some.injEq,
        Row.mk.injEq, Cell.num.injEq, Cell.str.injEq, Cell.date.injEq]
      exact ⟨by rw [pyInt_intRat], trivial, textCell_idem r.book, textCell_idem r.category,
        textCell_idem r.item, trivial, mkType_fixed _ (mkType_canonical r.type)⟩

theorem filterMap_prepRow_idem (df : List Row) :
    (df.filterMap prepRow).filterMap prepRow = df.filterMap prepRow := by
  induction df with
  | nil => rfl
  | cons a t ih =>
      cases h : prepRow a with
      | none => simp [List.filterMap_cons, h, ih]
      | some b => simp [List.filterMap_cons, h, prepRow_idem a b h, ih]

theorem mem_prepare (df : List Row) (r : Row) (h : r ∈ prepare_for_editor df) :
    ∃ r₀ ∈ df, prepRow r₀ = some r := by
  rw [prepare_eq_filterMap] at h
  exact List.mem_filterMap.1 h

theorem prepRow_type_eq (r₀ r : Row) (h : prepRow r₀ = some r) :
    r.type = .str (mkType r₀.type) := by
  cases hd : pdToDatetime r₀.date with
  | none => rw [prepRow_none r₀ hd] at h; exact absurd h (by simp)
  | some d => rw [prepRow_some r₀ d hd] at h; cases h; rfl

/-! ## C10 -/

/-- C10: `prepare_for_editor` is idempotent, so the records table —
which every storage path pipes through `prepare_for_editor` — is always a
fixed point of it. -/
theorem prepare_for_editor_idem (df : List Row) :
    prepare_for_editor (prepare_for_editor df) = prepare_for_editor df := by
  rw [prepare_eq_filterMap df, prepare_eq_filterMap (df.filterMap prepRow)]
  exact filterMap_prepRow_idem df

/-! ## C6 -/

/-- C6: every row of a `prepare_for_editor` output — hence every row of
the stored records table, which all creation/edit/import paths produce via
`prepare_for_editor` — has one of the two canonical type values. -/
theorem stored_type_canonical (df : List Row) (r : Row)
    (h : r ∈ prepare_for_editor df) :
    r.type = Cell.str "收入" ∨ r.type = Cell.str "支出" := by
  obtain ⟨r₀, _, hp⟩ := mem_prepare df r h
  rw [prepRow_type_eq r₀ r hp]
  rcases mkType_canonical r₀.type with h' | h' <;> rw [h']
  · exact Or.inl rfl
  · exact Or.inr rfl

theorem stored_type_canonical_witness :
    ((prepare_for_editor [probeRow]).headD blankRow).type = Cell.str "收入" ∨
    ((prepare_for_editor [probeRow]).headD blankRow).type = Cell.str "支出" :=
  stored_type_canonical [probeRow] _ (by decide)

/-! ## C8 -/

/-- C8: a sidebar record-form submission whose amount text makes
`parse_amount` raise is terminal for that interaction: the in-memory
records table and the persisted files are exactly as before, and the
handler is not re-run. -/
theorem submit_failure_leaves_state (st : AppState) (inp : FormInput)
    (h : parse_amount inp.amountText = none) : submitRecord st inp = st := by
  unfold submitRecord
  rw [h]

theorem submit_failure_leaves_state_witness :
    parse_amount badInput.amountText = none ∧ submitRecord st0 badInput = st0 :=
  ⟨by decide, submit_failure_leaves_state st0 badInput (by decide)⟩

/-! ## C5 -/

/-- C5 counterexample: the manual sidebar path does not enforce
`amount >= 0` — submitting the amount text `"-5"` stores (and persists) a
row with amount `-5.0 < 0`. -/
theorem manual_entry_stores_negative_amount :
    (submitRecord st0 inpNeg).records.map Row.amount = [Cell.num (-5)] ∧
    (submitRecord st0 inpNeg).savedRecords.map Row.amount = [Cell.num (-5)] ∧
    ((-5 : Rat) < 0) := by decide

theorem prepRow_amount_eq (r₀ r : Row) (h : prepRow r₀ = some r) :
    amtVal r = amtVal r₀ := by
  cases hd : pdToDatetime r₀.date with
  | none => rw [prepRow_none r₀ hd] at h; exact absurd h (by simp)
  | some d =>
      rw [prepRow_some r₀ d hd] at h
      cases h
      simp [amtVal, pdToNumeric]

theorem mem_prepare_amount (df : List Row) (r : Row) (h : r ∈ prepare_for_editor df) :
    ∃ r₀ ∈ df, amtVal r = amtVal r₀ := by
  obtain ⟨r₀, hm, hp⟩ := mem_prepare df r h
  exact ⟨r₀, hm, prepRow_amount_eq r₀ r hp⟩

theorem pyAbs_nonneg (q : Rat) : 0 ≤ pyAbs q := by
  unfold pyAbs
  by_cases h : q < 0
  · rw [if_pos h]; linarith
  · rw [if_neg h]; linarith

/-- C5 amended: the CSV import path does keep stored amounts non-negative
(it pipes every amount through `parse_amount` and `.abs()`), so importing
preserves the `amount >= 0` invariant; the manual path (see the
counterexample) does not. -/
theorem import_preserves_amounts_nonneg (st : AppState) (dfin : List Row)
    (h : ∀ r ∈ st.records, 0 ≤ amtVal r) :
    ∀ r ∈ (importCSV st dfin).records, 0 ≤ amtVal r := by
  intro r hr
  unfold importCSV at hr
  by_cases hall : (dfin.all fun r => (parse_amount (cellText r.amount)).isSome) = true
  case neg => rw [if_neg hall] at hr; exact h r hr
  rw [if_pos hall] at hr
  cases hn : next_id st.records with
  | none => rw [hn] at hr; exact h r hr
  | some start =>
      rw [hn] at hr
      obtain ⟨r₁, hm1, he1⟩ := mem_prepare_amount _ r hr
      rw [he1]
      rcases List.mem_append.1 hm1 with hL | hR
      · obtain ⟨r₂, hm2, he2⟩ := mem_prepare_amount _ r₁ hL
        rw [he2]
        exact h r₂ hm2
      · obtain ⟨r₂, hm2, he2⟩ := mem_prepare_amount _ r₁ hR
        rw [he2]
        obtain ⟨p, _, rfl⟩ := List.mem_map.1 hm2
        simpa [importBuiltRow, amtVal, pdToNumeric] using
          pyAbs_nonneg ((parse_amount (cellText p.2.2.amount)).getD 0)

theorem import_preserves_amounts_nonneg_witness :
    0 ≤ amtVal ((importCSV st0 importFrame0).records.headD blankRow) :=
  import_preserves_amounts_nonneg st0 importFrame0
    (by intro r hr; simp [st0] at hr) _ (by decide)

/-! ## C4 -/

/-- C4 counterexample: a deleted ID can be assigned again.  Create the
first entry (ID 1), delete it, create another entry: `next_id` is
`max existing + 1` over the remaining table, so the new entry gets the
deleted ID 1 back. -/
theorem deleted_max_id_reused :
    (submitRecord st0 inp1).records.map Row.ID = [Cell.num 1] ∧
    (deleteRows (submitRecord st0 inp1) [1]).records = [] ∧
    (submitRecord (deleteRows (submitRecord st0 inp1) [1]) inp1).records.map Row.ID =
      [Cell.num 1] := by decide

theorem prepRow_ID_int (r₀ r : Row) (h : prepRow r₀ = some r) :
    r.ID = Cell.num (intRat (pyInt ((pdToNumeric r₀.ID).getD 0))) := by
  cases hd : pdToDatetime r₀.date with
  | none => rw [prepRow_none r₀ hd] at h; exact absurd h (by simp)
  | some d => rw [prepRow_some r₀ d hd] at h; cases h; rfl

theorem prepare_intIDs (df : List Row) : intIDs (prepare_for_editor df) := by
  intro r hr
  obtain ⟨r₀, _, hp⟩ := mem_prepare df r hr
  exact ⟨_, prepRow_ID_int r₀ r hp⟩

theorem prepare_map_ID (df : List Row) (h : intIDs df) :
    (prepare_for_editor df).map Row.ID =
      (df.filter fun r => (pdToDatetime r.date).isSome).map Row.ID := by
  rw [prepare_eq_filterMap]
  induction df with
  | nil => rfl
  | cons a t ih =>
      have ht : intIDs t := fun r hr => h r (List.mem_cons_of_mem a hr)
      cases hd : pdToDatetime a.date with
      | none =>
          rw [List.filterMap_cons_none (prepRow_none a hd),
            List.filter_cons_of_neg (by simp [hd])]
          exact ih ht
      | some d =>
          obtain ⟨n, hn⟩ := h a (List.mem_cons_self a t)
          rw [List.filterMap_cons_some (prepRow_some a d hd),
            List.filter_cons_of_pos (by simp [hd])]
          simp only [List.map_cons, ih ht, hn, pdToNumeric, Option.getD_some, pyInt_intRat]

theorem prepare_IDs_sublist (df : List Row) (h : intIDs df) :
    List.Sublist ((prepare_for_editor df).map Row.ID) (df.map Row.ID) := by
  rw [prepare_map_ID df h]
  exact (List.filter_sublist df).map Row.ID

theorem IDsOK_prepare (df : List Row) (h : IDsOK df) : IDsOK (prepare_for_editor df) :=
  ⟨prepare_intIDs df, h.2.sublist (prepare_IDs_sublist df h.1)⟩

theorem le_foldl_max (l : List Rat) (a : Rat) :
    a ≤ l.foldl max a ∧ ∀ x ∈ l, x ≤ l.foldl max a := by
  induction l generalizing a with
  | nil => exact ⟨le_refl a, by simp⟩
  | cons b t ih =>
      obtain ⟨h1, h2⟩ := ih (max a b)
      simp only [List.foldl_cons]
      refine ⟨le_trans (le_max_left a b) h1, ?_⟩
      intro x hx
      rcases List.mem_cons.1 hx with rfl | hx'
      · exact le_trans (le_max_right a x) h1
      · exact h2 x hx'

theorem lt_pyInt_add_one (q : Rat) : q < ((pyInt q : Int) : Rat) + 1 := by
  unfold pyInt
  by_cases h : q < 0
  · rw [if_pos h]
    have := Int.le_ceil q
    linarith
  · rw [if_neg h]
    exact Int.lt_floor_add_one q

theorem next_id_gt (df : List Row) (n : Int) (h : next_id df = some n) :
    ∀ r ∈ df, ∀ q, pdToNumeric r.ID = some q → q < intRat n := by
  intro r hr q hq
  unfold next_id at h
  by_cases hdf : df.isEmpty
  · rw [List.isEmpty_iff] at hdf
    subst hdf
    simp at hr
  · rw [if_neg hdf] at h
    cases hfm : df.filterMap (fun r => pdToNumeric r.ID) with
    | nil => rw [hfm] at h; exact absurd h (by simp)
    | cons q0 qs =>
        rw [hfm] at h
        cases h
        have hq' : q ∈ q0 :: qs := by
          rw [← hfm]
          exact List.mem_filterMap.2 ⟨r, hr, hq⟩
        have hb : q ≤ qs.foldl max q0 := by
          rcases List.mem_cons.1 hq' with rfl | hmem
          · exact (le_foldl_max qs q).1
          · exact (le_foldl_max qs q0).2 q hmem
        rw [intRat_cast]
        have hlt := lt_pyInt_add_one (qs.foldl max q0)
        push_cast
        linarith

/-- C4 amended: entry IDs are unique within the ledger and a freshly
assigned ID (`max existing + 1`, `1` on an empty table) is strictly
greater than every ID present at assignment time, so creating and
deleting preserve uniqueness; but an ID freed by deleting the entry that
held the maximum can be assigned again (see the counterexample). -/
theorem id_assignment_unique :
    (∀ st inp, IDsOK st.records → IDsOK (submitRecord st inp).records) ∧
    (∀ st ids, IDsOK st.records → IDsOK (deleteRows st ids).records) ∧
    (∀ df n, next_id df = some n →
      ∀ r ∈ df, ∀ q, pdToNumeric r.ID = some q → q < intRat n) := by
  refine ⟨?_, ?_, next_id_gt⟩
  · intro st inp h
    unfold submitRecord
    cases hp : parse_amount inp.amountText with
    | none => exact h
    | some amt =>
        cases hn : next_id st.records with
        | none => exact h
        | some nid =>
            show IDsOK (prepare_for_editor (st.records ++ [formRow inp nid amt]))
            have hint : intIDs (st.records ++ [formRow inp nid amt]) := by
              intro r hr
              rcases List.mem_append.1 hr with hL | hR
              · exact h.1 r hL
              · rw [List.mem_singleton] at hR
                subst hR
                exact ⟨nid, rfl⟩
            refine ⟨prepare_intIDs _, ?_⟩
            refine List.Nodup.sublist (prepare_IDs_sublist _ hint) ?_
            rw [List.map_append, List.nodup_append]
            refine ⟨h.2, List.nodup_singleton _, ?_⟩
            intro a ha hb
            simp only [List.map_cons, List.map_nil, List.mem_singleton] at hb
            obtain ⟨r, hrmem, rfl⟩ := List.mem_map.1 ha
            obtain ⟨m, hm⟩ := h.1 r hrmem
            have hnum : pdToNumeric r.ID = some (intRat m) := by rw [hm]; rfl
            have hlt := next_id_gt st.records nid hn r hrmem (intRat m) hnum
            have hmb : Cell.num (intRat m) = Cell.num (intRat nid) := by
              rw [← hm]; exact hb
            rw [Cell.num.inj hmb] at hlt
            exact lt_irrefl _ hlt
  · intro st ids h
    unfold deleteRows
    by_cases hid : ids.isEmpty
    · rw [if_pos hid]; exact h
    · rw [if_neg hid]
      have h1 : IDsOK (prepare_for_editor st.records) := IDsOK_prepare _ h
      have h2 : IDsOK ((prepare_for_editor st.records).filter
          fun r => ! ids.any fun i => r.ID == Cell.num (intRat i)) := by
        refine ⟨fun r hr => h1.1 r (List.mem_of_mem_filter hr), ?_⟩
        exact h1.2.sublist ((List.filter_sublist _).map Row.ID)
      exact IDsOK_prepare _ h2

theorem id_assignment_unique_witness : IDsOK (submitRecord st0 inp1).records :=
  id_assignment_unique.1 st0 inp1
    ⟨by intro r hr; simp [st0] at hr, by simp [st0]⟩

/-! ## C7 -/

theorem hexChar_ne_bar (n : Nat) (h : n < 16) : hexChar n ≠ '|' := by
  interval_cases n <;> decide

theorem hexDigestAux_no_bar (fuel n : Nat) : '|' ∉ hexDigestAux fuel n := by
  induction fuel generalizing n with
  | zero => simp [hexDigestAux]
  | succ f ih =>
      unfold hexDigestAux
      by_cases h : n < 16
      · rw [if_pos h]
        intro hm
        rw [List.mem_singleton] at hm
        exact hexChar_ne_bar n h hm.symm
      · rw [if_neg h]
        intro hm
        rcases List.mem_append.1 hm with h1 | h2
        · exact ih (n / 16) h1
        · rw [List.mem_singleton] at h2
          exact hexChar_ne_bar (n % 16) (Nat.mod_lt n (by norm_num)) h2.symm

theorem sign_token_no_bar (H : List Char → Nat) (raw : List Char) :
    '|' ∉ sign_token H raw := hexDigestAux_no_bar _ _

theorem splitOnChar_ne_nil (sep : Char) (cs : List Char) : splitOnChar sep cs ≠ [] := by
  cases cs with
  | nil => simp [splitOnChar]
  | cons c t =>
      simp only [splitOnChar]
      cases h : splitOnChar sep t with
      | nil => simp
      | cons hd tl => by_cases hc : c = sep <;> simp [hc]

theorem splitOnChar_no_sep (sep : Char) (u : List Char) (h : sep ∉ u) :
    splitOnChar sep u = [u] := by
  induction u with
  | nil => rfl
  | cons c t ih =>
      have hc : c ≠ sep := by rintro rfl; exact h (List.mem_cons_self _ _)
      have ht : sep ∉ t := fun hm => h (List.mem_cons_of_mem c hm)
      simp [splitOnChar, ih ht, hc]

theorem splitOnChar_append (sep : Char) (u rest : List Char) (h : sep ∉ u) :
    splitOnChar sep (u ++ sep :: rest) = u :: splitOnChar sep rest := by
  induction u with
  | nil =>
      simp only [List.nil_append, splitOnChar]
      cases hs : splitOnChar sep rest with
      | nil => exact absurd hs (splitOnChar_ne_nil sep rest)
      | cons hd tl => simp
  | cons c t ih =>
      have hc : c ≠ sep := by rintro rfl; exact h (List.mem_cons_self _ _)
      have ht : sep ∉ t := fun hm => h (List.mem_cons_of_mem c hm)
      rw [List.cons_append]
      simp only [splitOnChar]
      cases hs : splitOnChar sep (t ++ sep :: rest) with
      | nil => exact absurd hs (splitOnChar_ne_nil _ _)
      | cons hd tl =>
          rw [ih ht] at hs
          cases hs
          show (if c = sep then [] :: t :: splitOnChar sep rest
            else (c :: t) :: splitOnChar sep rest) = (c :: t) :: splitOnChar sep rest
          rw [if_neg hc]

theorem split_cookie_value (u r sg : List Char)
    (hu : '|' ∉ u) (hr : '|' ∉ r) (hs : '|' ∉ sg) :
    splitOnChar '|' (u ++ '|' :: r ++ '|' :: sg) = [u, r, sg] := by
  rw [List.append_assoc, List.cons_append]
  rw [splitOnChar_append '|' u _ hu, splitOnChar_append '|' r _ hr,
    splitOnChar_no_sep '|' sg hs]

theorem parse_make_roundtrip (H : List Char → Nat) (u r : List Char)
    (hu : '|' ∉ u) (hr : '|' ∉ r) :
    parse_session_cookie_value H (make_session_cookie_value H u r) = some (u, r) := by
  unfold make_session_cookie_value parse_session_cookie_value
  rw [split_cookie_value u r _ hu hr (sign_token_no_bar H _)]
  simp [parseParts]

theorem parse_not_three_parts (H : List Char → Nat) (v : List Char)
    (h : (splitOnChar '|' v).length ≠ 3) :
    parse_session_cookie_value H v = none := by
  unfold parse_session_cookie_value
  cases hs : splitOnChar '|' v with
  | nil => rfl
  | cons a l1 =>
      cases l1 with
      | nil => rfl
      | cons b l2 =>
          cases l2 with
          | nil => rfl
          | cons c l3 =>
              cases l3 with
              | nil => rw [hs] at h; simp at h
              | cons d l4 => rfl

theorem parse_bad_sig (H : List Char → Nat) (u r sg : List Char)
    (hu : '|' ∉ u) (hr : '|' ∉ r) (hs : '|' ∉ sg)
    (hne : sg ≠ sign_token H (u ++ '|' :: r)) :
    parse_session_cookie_value H (u ++ '|' :: r ++ '|' :: sg) = none := by
  unfold parse_session_cookie_value
  rw [split_cookie_value u r sg hu hr hs]
  simp [parseParts, Ne.symm hne]

theorem rotate_stores_hash (H2 : List Char → Nat) (secret : List Char)
    (db : List (List Char × List Char)) (u raw : List Char)
    (h : ∃ v, lookupTokenHash db u = some v) :
    lookupTokenHash (create_or_rotate_session_token H2 secret db u raw) u =
      some (hexDigest (H2 (raw ++ secret))) := by
  induction db with
  | nil =>
      obtain ⟨v, hv⟩ := h
      exact absurd hv (by simp [lookupTokenHash])
  | cons p t ih =>
      by_cases hp : (p.1 == u) = true
      · unfold create_or_rotate_session_token lookupTokenHash
        rw [List.map_cons, if_pos hp]
        simp [List.find?_cons, hp]
      · have hpf : (p.1 == u) = false := by simpa using hp
        obtain ⟨v, hv⟩ := h
        have h' : ∃ w, lookupTokenHash t u = some w := by
          refine ⟨v, ?_⟩
          unfold lookupTokenHash at hv ⊢
          simpa [List.find?_cons, hpf] using hv
        have ht := ih h'
        unfold create_or_rotate_session_token lookupTokenHash at ht ⊢
        rw [List.map_cons, if_neg hp]
        simpa [List.find?_cons, hpf] using ht

/-- C7: the session-cookie scheme is exactly `username|rawToken|signature`
with the signature an HMAC (hex-encoded) over `username|rawToken`:
parsing inverts making for bar-free usernames and tokens; a value without
exactly three bar-separated parts, or with a wrong signature, parses to
`(None, None)`; and rotation stores only the (hex-encoded, secret-salted)
hash of the raw token in the auth database. -/
theorem session_cookie_scheme :
    (∀ (H : List Char → Nat) (u r : List Char), '|' ∉ u → '|' ∉ r →
      parse_session_cookie_value H (make_session_cookie_value H u r) = some (u, r)) ∧
    (∀ (H : List Char → Nat) (v : List Char), (splitOnChar '|' v).length ≠ 3 →
      parse_session_cookie_value H v = none) ∧
    (∀ (H : List Char → Nat) (u r sg : List Char), '|' ∉ u → '|' ∉ r → '|' ∉ sg →
      sg ≠ sign_token H (u ++ '|' :: r) →
      parse_session_cookie_value H (u ++ '|' :: r ++ '|' :: sg) = none) ∧
    (∀ (H2 : List Char → Nat) (secret : List Char)
      (db : List (List Char × List Char)) (u raw : List Char),
      (∃ v, lookupTokenHash db u = some v) →
      lookupTokenHash (create_or_rotate_session_token H2 secret db u raw) u =
        some (hexDigest (H2 (raw ++ secret)))) :=
  ⟨parse_make_roundtrip, parse_not_three_parts, parse_bad_sig, rotate_stores_hash⟩

theorem session_cookie_scheme_witness :
    parse_session_cookie_value (fun _ => 258)
      (make_session_cookie_value (fun _ => 258) "alice".data "tok".data) =
      some ("alice".data, "tok".data) ∧
    parse_session_cookie_value (fun _ => 258) "alice|tok".data = none ∧
    parse_session_cookie_value (fun _ => 258)
      ("alice".data ++ '|' :: "tok".data ++ '|' :: "beef".data) = none ∧
    lookupTokenHash (create_or_rotate_session_token (fun _ => 7) "s".data
        [("alice".data, "x".data)] "alice".data "t".data) "alice".data =
      some (hexDigest 7) :=
  ⟨session_cookie_scheme.1 _ "alice".data "tok".data (by decide) (by decide),
   session_cookie_scheme.2.1 _ "alice|tok".data (by decide),
   session_cookie_scheme.2.2.1 _ "alice".data "tok".data "beef".data (by decide)
     (by decide) (by decide) (by decide),
   session_cookie_scheme.2.2.2 (fun _ => 7) "s".data [("alice".data, "x".data)]
     "alice".data "t".data ⟨"x".data, by decide⟩⟩

/-! ## C9 -/

/-- C9 (spec-modelled Memo Parser): the memo line
`"2025-12-02 支出 Rent 500"` parses to exactly one candidate entry, with
date 2025-12-02, expense type, category `Rent`, amount `500.0`. -/
theorem memo_roundtrip_rent :
    (parse_memo "2025-12-02 支出 Rent 500").map
      (fun e => (e.date, e.type, e.category, e.amount)) =
    [(⟨2025, 12, 2⟩, "支出", "Rent", (500 : Rat))] := by decide

end Leekey
